import Mathlib

/-!
Verification of the mirrored-catalog façade `DatabasePostgreSQLReplica`
(src/Databases/PostgreSQL/DatabasePostgreSQLReplica.cpp) and of the shard-scalar
injection performed by the `IInterpreterUnionOrSelectQuery` constructor
(src/Interpreters/IInterpreterUnionOrSelectQuery.h).

The façade is embedded as a state machine.  Its state holds

  * `tables`        : the registry `std::map<String, StoragePtr> tables`,
                      modelled as an association list with unique-key insert;
  * `replication_handler` : the optionally constructed replication coordinator
                      (`std::unique_ptr<PostgreSQLReplicationHandler>`);
  * `metadataFileExists`  : existence of the single metadata file
                      (`metadata_path + METADATA_SUFFIX`);
  * `base`          : the state of the underlying generic catalog
                      (`DatabaseOrdinary` / `DatabaseAtomic`), kept abstract as a
                      type parameter together with a record of its operations.

Each façade operation is translated line by line from the C++ and, where the
original has observable side effects, additionally returns the list of events it
performed, so that the ordering claims (shutdown before metadata deletion,
hydration before synchronization, addStorage before startup) can be stated over
the produced trace.

The replication coordinator itself lives outside the provided sources; its
interface behaviour (addStorage / startup / shutdown / shutdownFinal as state
updates, shutdown idempotent) is modelled from the spec, as noted on the
corresponding definitions.
-/

namespace ClickHouse

/-- Lookup in an association list, first match wins (models `std::map::find`). -/
def mapFind {α : Type} (r : List (String × α)) (k : String) : Option α :=
  match r with
  | [] => none
  | (k', v) :: rest => if k' = k then some v else mapFind rest k

/-- Insert or overwrite a key in an association list (models `map[k] = v`). -/
def mapInsert {α : Type} (r : List (String × α)) (k : String) (v : α) :
    List (String × α) :=
  match r with
  | [] => [(k, v)]
  | (k', v') :: rest => if k' = k then (k, v) :: rest else (k', v') :: mapInsert rest k v

theorem mapFind_mapInsert_self {α : Type} (r : List (String × α)) (k : String) (v : α) :
    mapFind (mapInsert r k v) k = some v := by
  induction r with
  | nil => simp [mapInsert, mapFind]
  | cons p rest ih =>
    obtain ⟨k', v'⟩ := p
    by_cases h : k' = k
    · simp [mapInsert, mapFind, h]
    · simp [mapInsert, mapFind, h, ih]

theorem mapFind_mapInsert_ne {α : Type} (r : List (String × α)) (k k' : String) (v : α)
    (h : k ≠ k') : mapFind (mapInsert r k v) k' = mapFind r k' := by
  induction r with
  | nil => simp [mapInsert, mapFind, h]
  | cons p rest ih =>
    obtain ⟨k'', v''⟩ := p
    by_cases h2 : k'' = k
    · subst h2
      simp [mapInsert, mapFind, h]
    · simp only [mapInsert, if_neg h2]
      by_cases h3 : k'' = k'
      · simp [mapFind, h3]
      · simp [mapFind, h3, ih]

theorem mapInsert_cons_self {α : Type} (k : String) (v v' : α)
    (rest : List (String × α)) :
    mapInsert ((k, v') :: rest) k v = (k, v) :: rest := by
  simp [mapInsert]

theorem mapInsert_cons_ne {α : Type} (k k' : String) (v v' : α)
    (rest : List (String × α)) (h : k' ≠ k) :
    mapInsert ((k', v') :: rest) k v = (k', v') :: mapInsert rest k v := by
  simp [mapInsert, h]

theorem mem_mapInsert {α : Type} (r : List (String × α)) (k : String) (v : α)
    (p : String × α) (hp : p ∈ mapInsert r k v) : p = (k, v) ∨ p ∈ r := by
  induction r with
  | nil => simpa [mapInsert] using hp
  | cons q rest ih =>
    obtain ⟨k', v'⟩ := q
    by_cases h : k' = k
    · subst h
      rw [mapInsert_cons_self] at hp
      rcases List.mem_cons.mp hp with h1 | h1
      · exact Or.inl h1
      · exact Or.inr (List.mem_cons_of_mem _ h1)
    · rw [mapInsert_cons_ne _ _ _ _ _ h] at hp
      rcases List.mem_cons.mp hp with h1 | h1
      · exact Or.inr (List.mem_cons.mpr (Or.inl h1))
      · rcases ih h1 with h2 | h2
        · exact Or.inl h2
        · exact Or.inr (List.mem_cons_of_mem _ h2)

/-- Key list of an association list. -/
def mapKeys {α : Type} (r : List (String × α)) : List String :=
  r.map Prod.fst

theorem mem_mapKeys_iff {α : Type} (r : List (String × α)) (n : String) :
    n ∈ mapKeys r ↔ ∃ h, (n, h) ∈ r := by
  induction r with
  | nil => simp [mapKeys]
  | cons q rest ih =>
    obtain ⟨k', v'⟩ := q
    simp only [mapKeys, List.map_cons, List.mem_cons, Prod.mk.injEq] at ih ⊢
    rw [show (∃ h, (n = k' ∧ h = v') ∨ (n, h) ∈ rest) ↔
          (∃ h, n = k' ∧ h = v') ∨ ∃ h, (n, h) ∈ rest from exists_or]
    simp [ih, mapKeys]

theorem mem_mapKeys_mapInsert {α : Type} (r : List (String × α)) (k : String) (v : α)
    (n : String) :
    n ∈ mapKeys (mapInsert r k v) ↔ n = k ∨ n ∈ mapKeys r := by
  induction r with
  | nil => simp [mapInsert, mapKeys]
  | cons q rest ih =>
    obtain ⟨k', v'⟩ := q
    by_cases h : k' = k
    · subst h
      rw [mapInsert_cons_self]
      simp only [mapKeys, List.map_cons, List.mem_cons] at ih ⊢
      tauto
    · rw [mapInsert_cons_ne _ _ _ _ _ h]
      simp only [mapKeys, List.map_cons, List.mem_cons] at ih ⊢
      tauto

/-- A table handle: `StoragePostgreSQLReplica`.  The nested, data-bearing storage
(`StoragePtr nested_storage`) is kept abstract as a numeric identifier; it is
absent exactly while the handle is Pending. -/
structure StoragePostgreSQLReplica where
  storage_id : String
  nested : Option Nat
deriving DecidableEq, Repr

/-- Translation of `StoragePostgreSQLReplica::isNestedLoaded`. -/
def StoragePostgreSQLReplica.isNestedLoaded (s : StoragePostgreSQLReplica) : Bool :=
  s.nested.isSome

/-- Translation of `StoragePostgreSQLReplica::tryGetNested`. -/
def StoragePostgreSQLReplica.tryGetNested (s : StoragePostgreSQLReplica) : Option Nat :=
  s.nested

/-- Caller context: whether a query context is attached and, when it is, the
engine-name set `getQueryContext().getQueryFactoriesInfo().storages`. -/
structure Context where
  hasQueryContext : Bool
  storages : List String
deriving DecidableEq, Repr

/-- The global context used by `getStorage`: no query context is attached to it. -/
def global_context : Context := ⟨false, []⟩

/-- Observable events emitted by façade operations, in program order. -/
inductive Event where
  | coordConstruct
  | coordFetchRequiredTables
  | coordAddStorage (name : String)
  | coordStartup
  | coordShutdown
  | coordShutdownFinal
  | metadataRemove
  | baseDrop
  | baseDropTable (name : String)
  | baseCreateTable (name : String)
  | baseLoadStoredObjects
  | logWarning
deriving DecidableEq, Repr

/-- Faults that can propagate out of façade operations. -/
inductive Err where
  | constructFailed
  | fetchFailed
  | startupFailed
  | removeFailed
  | baseErr (code : Nat)
deriving DecidableEq, Repr

/-- Modelled from the spec: the replication coordinator
(`PostgreSQLReplicationHandler`, whose implementation is outside the provided
sources).  Its observable state is the list of storages registered through
`addStorage`, whether `startup` has been called, whether a cooperative stop has
been requested, and whether the blocking final join has completed. -/
structure PostgreSQLReplicationHandler where
  registered : List String
  started : Bool
  stopRequested : Bool
  finalized : Bool
deriving DecidableEq, Repr

/-- Modelled from the spec: `addStorage(name, handle)` registers one handle. -/
def PostgreSQLReplicationHandler.addStorage (h : PostgreSQLReplicationHandler)
    (name : String) : PostgreSQLReplicationHandler :=
  { h with registered := h.registered ++ [name] }

/-- Modelled from the spec: `startup()` begins background synchronization. -/
def PostgreSQLReplicationHandler.startup (h : PostgreSQLReplicationHandler) :
    PostgreSQLReplicationHandler :=
  { h with started := true }

/-- Modelled from the spec: `shutdown()` requests cooperative stop; idempotent. -/
def PostgreSQLReplicationHandler.shutdown (h : PostgreSQLReplicationHandler) :
    PostgreSQLReplicationHandler :=
  { h with stopRequested := true }

/-- Modelled from the spec: `shutdownFinal()` blocks until background work has
stopped and resources are released. -/
def PostgreSQLReplicationHandler.shutdownFinal (h : PostgreSQLReplicationHandler) :
    PostgreSQLReplicationHandler :=
  { h with stopRequested := true, finalized := true }

/-- Operations the façade requires of the underlying catalog (`Base`):
`DatabaseOrdinary` or `DatabaseAtomic`, abstract over its state type. -/
structure BaseOps (σ : Type) where
  tryGetTable : σ → String → Context → Option StoragePostgreSQLReplica
  createTable : σ → Context → String → StoragePostgreSQLReplica → Nat → Except Err σ
  dropTable : σ → Context → String → Bool → Except Err σ
  drop : σ → Context → σ
  loadStoredObjects : σ → Bool → Bool → Except Err σ

/-- Full state of one `DatabasePostgreSQLReplica<Base>` instance. -/
structure DatabaseState (σ : Type) where
  tables : List (String × StoragePostgreSQLReplica)
  replication_handler : Option PostgreSQLReplicationHandler
  metadataFileExists : Bool
  base : σ
deriving DecidableEq, Repr

/-- Result of a façade operation: the fault, if one propagated; the state after
the operation (mutations made before a fault persist, as with C++ exceptions);
and the trace of events performed, in order. -/
structure OpResult (σ : Type) where
  err : Option Err
  state : DatabaseState σ
  trace : List Event
deriving DecidableEq, Repr

/-- Environment for `startSynchronization`: whether coordinator construction
succeeds, the outcome of `fetchRequiredTables` (`none` models the remote fetch
throwing), and whether coordinator `startup` succeeds. -/
structure SyncEnv where
  constructOk : Bool
  fetchOk : Option (List String)
  startupOk : Bool
deriving DecidableEq, Repr

namespace DatabasePostgreSQLReplica

variable {σ : Type}

/-- Translation of `DatabasePostgreSQLReplica<Base>::tryGetTable`: a caller whose
query context names `ReplacingMergeTree` among its query factories is the
privileged (synchronization-thread) path and is delegated to the base catalog;
every other caller gets the registry entry only when its nested storage is
loaded. -/
def tryGetTable (ops : BaseOps σ) (st : DatabaseState σ) (name : String)
    (context : Context) : Option StoragePostgreSQLReplica :=
  if context.hasQueryContext && context.storages.contains "ReplacingMergeTree" then
    ops.tryGetTable st.base name context
  else
    match mapFind st.tables name with
    | some table => if table.isNestedLoaded then some table else none
    | none => none

/-- Translation of `DatabasePostgreSQLReplica<Base>::createTable`. -/
def createTable (ops : BaseOps σ) (st : DatabaseState σ) (context : Context)
    (name : String) (table : StoragePostgreSQLReplica) (query : Nat) : OpResult σ :=
  if context.hasQueryContext && context.storages.contains "ReplacingMergeTree" then
    match ops.createTable st.base context name table query with
    | .ok b => ⟨none, { st with base := b }, [.baseCreateTable name]⟩
    | .error e => ⟨some e, st, [.baseCreateTable name]⟩
  else
    ⟨none, st, [.logWarning]⟩

/-- Translation of `DatabasePostgreSQLReplica<Base>::dropTable`: pure delegation. -/
def dropTable (ops : BaseOps σ) (st : DatabaseState σ) (context : Context)
    (name : String) (no_delay : Bool) : OpResult σ :=
  match ops.dropTable st.base context name no_delay with
  | .ok b => ⟨none, { st with base := b }, [.baseDropTable name]⟩
  | .error e => ⟨some e, st, [.baseDropTable name]⟩

/-- Translation of `DatabasePostgreSQLReplica<Base>::shutdown`. -/
def shutdown (st : DatabaseState σ) : DatabaseState σ × List Event :=
  match st.replication_handler with
  | some h =>
      ({ st with replication_handler := some h.shutdown }, [.coordShutdown])
  | none => (st, [])

/-- Translation of `DatabasePostgreSQLReplica<Base>::drop`.  `removeOk` models
whether `Poco::File::remove` succeeds when the metadata file exists; on failure
the fault propagates and the base-catalog drop is not reached. -/
def drop (removeOk : Bool) (ops : BaseOps σ) (st : DatabaseState σ)
    (context : Context) : OpResult σ :=
  let p : DatabaseState σ × List Event :=
    match st.replication_handler with
    | some h =>
        ({ st with replication_handler := some h.shutdown.shutdownFinal },
         [.coordShutdown, .coordShutdownFinal])
    | none => (st, [])
  if p.1.metadataFileExists then
    if removeOk then
      ⟨none,
       { p.1 with metadataFileExists := false,
                  base := ops.drop p.1.base context },
       p.2 ++ [.metadataRemove, .baseDrop]⟩
    else
      ⟨some .removeFailed, p.1, p.2 ++ [.metadataRemove]⟩
  else
    ⟨none, { p.1 with base := ops.drop p.1.base context }, p.2 ++ [.baseDrop]⟩

/-- Translation of `DatabasePostgreSQLReplica<Base>::getStorage`: reuse the handle
found through `tryGetTable` under the global context, otherwise create a fresh
Pending handle (`StoragePostgreSQLReplica::create` with an absent nested
storage). -/
def getStorage (ops : BaseOps σ) (st : DatabaseState σ) (name : String) :
    StoragePostgreSQLReplica :=
  match tryGetTable ops st name global_context with
  | some storage => storage
  | none => { storage_id := name, nested := none }

/-- The loop body of `startSynchronization`: for each required table name, obtain
a handle, register it with the coordinator via `addStorage`, and insert it into
the registry.  (`getStorage` never returns a null pointer, so the `if (storage)`
guard of the original is always taken.) -/
def syncLoop (ops : BaseOps σ) : List String → DatabaseState σ →
    DatabaseState σ × List Event
  | [], st => (st, [])
  | table_name :: rest, st =>
      let storage := getStorage ops st table_name
      let r := syncLoop ops rest
        { st with
            replication_handler :=
              st.replication_handler.map (fun h => h.addStorage table_name),
            tables := mapInsert st.tables table_name storage }
      (r.1, Event.coordAddStorage table_name :: r.2)

/-- Translation of `DatabasePostgreSQLReplica<Base>::startSynchronization`:
construct the coordinator, fetch the required table set, run the registration
loop, then call coordinator `startup`. -/
def startSynchronization (env : SyncEnv) (ops : BaseOps σ) (st : DatabaseState σ) :
    OpResult σ :=
  if env.constructOk then
    let st1 := { st with replication_handler := some ⟨[], false, false, false⟩ }
    match env.fetchOk with
    | none => ⟨some .fetchFailed, st1, [.coordConstruct, .coordFetchRequiredTables]⟩
    | some tables_to_replicate =>
        let r := syncLoop ops tables_to_replicate st1
        if env.startupOk then
          ⟨none,
           { r.1 with replication_handler :=
               r.1.replication_handler.map PostgreSQLReplicationHandler.startup },
           [.coordConstruct, .coordFetchRequiredTables] ++ r.2 ++ [.coordStartup]⟩
        else
          ⟨some .startupFailed, r.1,
           [.coordConstruct, .coordFetchRequiredTables] ++ r.2 ++ [.coordStartup]⟩
  else
    ⟨some .constructFailed, st, [.coordConstruct]⟩

/-- Translation of `DatabasePostgreSQLReplica<Base>::loadStoredObjects`: base
hydration first, then synchronization startup; faults propagate. -/
def loadStoredObjects (env : SyncEnv) (ops : BaseOps σ) (st : DatabaseState σ)
    (has_force_restore_data_flag force_attach : Bool) : OpResult σ :=
  match ops.loadStoredObjects st.base has_force_restore_data_flag force_attach with
  | .error e => ⟨some e, st, [.baseLoadStoredObjects]⟩
  | .ok b =>
      let r := startSynchronization env ops { st with base := b }
      ⟨r.err, r.state, .baseLoadStoredObjects :: r.trace⟩

/-- Translation of `DatabasePostgreSQLReplica<Base>::getTablesIterator`: snapshot
of the registry entries whose nested storage is present. -/
def getTablesIterator (st : DatabaseState σ) : List (String × Nat) :=
  st.tables.filterMap
    (fun p => (StoragePostgreSQLReplica.tryGetNested p.2).map (fun ns => (p.1, ns)))

end DatabasePostgreSQLReplica

/-- Query options relevant to the `IInterpreterUnionOrSelectQuery` constructor:
the optional shard index and shard count carried by `SelectQueryOptions`. -/
structure SelectQueryOptions where
  shard_num : Option Nat
  shard_count : Option Nat
deriving DecidableEq, Repr

/-- The interpreter's execution context, reduced to its special-scalar map
(`Context::addSpecialScalar` stores one named constant block per name; the
constant's value is modelled by the stored number). -/
structure QueryContext where
  special_scalars : List (String × Nat)
deriving DecidableEq, Repr

/-- Translation of `Context::addSpecialScalar`. -/
def QueryContext.addSpecialScalar (c : QueryContext) (name : String) (v : Nat) :
    QueryContext :=
  { c with special_scalars := mapInsert c.special_scalars name v }

/-- Translation of the `IInterpreterUnionOrSelectQuery` constructor body: when
`options.shard_num` (resp. `options.shard_count`) is set, add the scalar
constant `_shard_num` (resp. `_shard_count`) with that value to the context. -/
def IInterpreterUnionOrSelectQuery (context : QueryContext)
    (options : SelectQueryOptions) : QueryContext :=
  let c1 := match options.shard_num with
    | some v => context.addSpecialScalar "_shard_num" v
    | none => context
  match options.shard_count with
  | some v => c1.addSpecialScalar "_shard_count" v
  | none => c1

/-- Scans a trace and checks that every metadata-file removal happens only after
both a coordinator `shutdown` and a coordinator `shutdownFinal` have already
occurred; the two flags carry whether each has been seen so far. -/
def quiescedBeforeRemove : List Event → Bool → Bool → Bool
  | [], _, _ => true
  | Event.metadataRemove :: rest, sd, fin =>
      sd && fin && quiescedBeforeRemove rest sd fin
  | Event.coordShutdown :: rest, _, fin => quiescedBeforeRemove rest true fin
  | Event.coordShutdownFinal :: rest, sd, _ => quiescedBeforeRemove rest sd true
  | _ :: rest, sd, fin => quiescedBeforeRemove rest sd fin

/-- The façade state just after `startSynchronization` constructs the
coordinator: a fresh handler with nothing registered and nothing started. -/
def afterConstruct {σ : Type} (st : DatabaseState σ) : DatabaseState σ :=
  { st with replication_handler := some ⟨[], false, false, false⟩ }

/-- A trivial underlying catalog over the unit state, used to instantiate the
polymorphic theorems on concrete inputs. -/
def unitOps : BaseOps Unit where
  tryGetTable := fun _ _ _ => none
  createTable := fun _ _ _ _ _ => .ok ()
  dropTable := fun _ _ _ _ => .ok ()
  drop := fun _ _ => ()
  loadStoredObjects := fun _ _ _ => .ok ()

/-- An underlying catalog over the unit state whose fallible operations all
fail, used to instantiate fault-propagation theorems. -/
def failOps : BaseOps Unit where
  tryGetTable := fun _ _ _ => none
  createTable := fun _ _ _ _ _ => .error (.baseErr 57)
  dropTable := fun _ _ _ _ => .error (.baseErr 60)
  drop := fun _ _ => ()
  loadStoredObjects := fun _ _ _ => .error (.baseErr 1000)

/-- A sample façade state with a constructed coordinator, one Loaded and one
Pending registry entry, and an existing metadata file. -/
def sampleState : DatabaseState Unit where
  tables :=
    [("orders", { storage_id := "orders", nested := some 7 }),
     ("customers", { storage_id := "customers", nested := none })]
  replication_handler := some ⟨["orders", "customers"], true, false, false⟩
  metadataFileExists := true
  base := ()

/-- A sample façade state in which the coordinator was never constructed. -/
def bareState : DatabaseState Unit where
  tables := []
  replication_handler := none
  metadataFileExists := true
  base := ()

/-- An unprivileged caller context: a query context is attached but its query
factories set does not name `ReplacingMergeTree`. -/
def plainContext : Context := ⟨true, ["MergeTree"]⟩

/-- A privileged caller context: the query factories set of its query context
names `ReplacingMergeTree`. -/
def syncContext : Context := ⟨true, ["ReplacingMergeTree"]⟩

theorem mapFind_some_mem {α : Type} (r : List (String × α)) (k : String) (v : α)
    (h : mapFind r k = some v) : (k, v) ∈ r := by
  induction r with
  | nil => simp [mapFind] at h
  | cons q rest ih =>
    obtain ⟨k', v'⟩ := q
    by_cases hk : k' = k
    · subst hk
      simp only [mapFind, if_true, eq_self_iff_true, Option.some.injEq] at h
      subst h
      exact List.mem_cons_self _ _
    · simp only [mapFind, if_neg hk] at h
      exact List.mem_cons_of_mem _ (ih h)

theorem getStorage_nested_none {σ : Type} (ops : BaseOps σ) (st : DatabaseState σ)
    (n : String) (hp : ∀ p ∈ st.tables, p.2.nested = none) :
    (DatabasePostgreSQLReplica.getStorage ops st n).nested = none := by
  have hlook : DatabasePostgreSQLReplica.tryGetTable ops st n global_context = none := by
    unfold DatabasePostgreSQLReplica.tryGetTable
    simp only [global_context, Bool.false_and, Bool.false_eq_true, if_false]
    cases hf : mapFind st.tables n with
    | none => rfl
    | some t =>
      have ht : t.nested = none := hp (n, t) (mapFind_some_mem _ _ _ hf)
      simp [StoragePostgreSQLReplica.isNestedLoaded, ht]
  simp [DatabasePostgreSQLReplica.getStorage, hlook]

theorem syncLoop_trace {σ : Type} (ops : BaseOps σ) (l : List String) :
    ∀ st : DatabaseState σ,
      (DatabasePostgreSQLReplica.syncLoop ops l st).2 = l.map Event.coordAddStorage := by
  induction l with
  | nil => intro st; simp [DatabasePostgreSQLReplica.syncLoop]
  | cons n rest ih =>
    intro st
    simp only [DatabasePostgreSQLReplica.syncLoop, List.map_cons]
    rw [ih]

theorem syncLoop_handler {σ : Type} (ops : BaseOps σ) (l : List String) :
    ∀ st : DatabaseState σ,
      (DatabasePostgreSQLReplica.syncLoop ops l st).1.replication_handler =
        st.replication_handler.map
          (fun h => { h with registered := h.registered ++ l }) := by
  induction l with
  | nil =>
    intro st
    cases hr : st.replication_handler <;>
      simp [DatabasePostgreSQLReplica.syncLoop, hr]
  | cons n rest ih =>
    intro st
    simp only [DatabasePostgreSQLReplica.syncLoop]
    rw [ih]
    cases hr : st.replication_handler <;>
      simp [hr, PostgreSQLReplicationHandler.addStorage]

theorem syncLoop_base {σ : Type} (ops : BaseOps σ) (l : List String) :
    ∀ st : DatabaseState σ,
      (DatabasePostgreSQLReplica.syncLoop ops l st).1.base = st.base := by
  induction l with
  | nil => intro st; simp [DatabasePostgreSQLReplica.syncLoop]
  | cons n rest ih =>
    intro st
    simp only [DatabasePostgreSQLReplica.syncLoop]
    rw [ih]

theorem syncLoop_metadata {σ : Type} (ops : BaseOps σ) (l : List String) :
    ∀ st : DatabaseState σ,
      (DatabasePostgreSQLReplica.syncLoop ops l st).1.metadataFileExists =
        st.metadataFileExists := by
  induction l with
  | nil => intro st; simp [DatabasePostgreSQLReplica.syncLoop]
  | cons n rest ih =>
    intro st
    simp only [DatabasePostgreSQLReplica.syncLoop]
    rw [ih]

theorem syncLoop_keys {σ : Type} (ops : BaseOps σ) (l : List String) :
    ∀ (st : DatabaseState σ) (n : String),
      n ∈ mapKeys (DatabasePostgreSQLReplica.syncLoop ops l st).1.tables ↔
        n ∈ l ∨ n ∈ mapKeys st.tables := by
  induction l with
  | nil => intro st n; simp [DatabasePostgreSQLReplica.syncLoop]
  | cons m rest ih =>
    intro st n
    simp only [DatabasePostgreSQLReplica.syncLoop]
    rw [ih]
    rw [mem_mapKeys_mapInsert]
    simp only [List.mem_cons]
    tauto

theorem syncLoop_pending {σ : Type} (ops : BaseOps σ) (l : List String) :
    ∀ st : DatabaseState σ, (∀ p ∈ st.tables, p.2.nested = none) →
      ∀ p ∈ (DatabasePostgreSQLReplica.syncLoop ops l st).1.tables, p.2.nested = none := by
  induction l with
  | cons m rest ih =>
    intro st hp
    simp only [DatabasePostgreSQLReplica.syncLoop]
    apply ih
    intro p hmem
    rcases mem_mapInsert _ _ _ _ hmem with h1 | h1
    · subst h1
      exact getStorage_nested_none ops st m hp
    · exact hp p h1
  | nil =>
    intro st hp
    simpa [DatabasePostgreSQLReplica.syncLoop] using hp

/-- Claim C2: for every prior state, table name, storage object and definition,
`createTable` invoked with a caller context that does not carry the privileged
marker performs no state change at all (registry, coordinator, metadata file and
underlying catalog are untouched), emits a diagnostic, and returns without
fault. -/
theorem createTable_unprivileged_silent_noop {σ : Type} (ops : BaseOps σ)
    (st : DatabaseState σ) (context : Context) (name : String)
    (table : StoragePostgreSQLReplica) (query : Nat)
    (hpriv : (context.hasQueryContext
               && context.storages.contains "ReplacingMergeTree") = false) :
    DatabasePostgreSQLReplica.createTable ops st context name table query =
      ⟨none, st, [Event.logWarning]⟩ := by
  have hc : ¬((context.hasQueryContext
                && context.storages.contains "ReplacingMergeTree") = true) := by
    rw [hpriv]; simp
  unfold DatabasePostgreSQLReplica.createTable
  rw [if_neg hc]

theorem createTable_unprivileged_silent_noop_concrete :
    ((plainContext.hasQueryContext
       && plainContext.storages.contains "ReplacingMergeTree") = false)
    ∧ DatabasePostgreSQLReplica.createTable unitOps sampleState plainContext
        "orders" ⟨"orders", none⟩ 0 = ⟨none, sampleState, [Event.logWarning]⟩ :=
  ⟨by decide,
   createTable_unprivileged_silent_noop unitOps sampleState plainContext
     "orders" ⟨"orders", none⟩ 0 (by decide)⟩

/-- Claim C3: for every caller context without the privileged marker,
`tryGetTable` returns the registry handle for `name` exactly when that handle
exists and is Loaded (nested storage present); in every other case it returns
`none`, which is a normal return value, not a fault. -/
theorem tryGetTable_unprivileged_loaded_only {σ : Type} (ops : BaseOps σ)
    (st : DatabaseState σ) (name : String) (context : Context)
    (h : StoragePostgreSQLReplica)
    (hpriv : (context.hasQueryContext
               && context.storages.contains "ReplacingMergeTree") = false) :
    DatabasePostgreSQLReplica.tryGetTable ops st name context = some h ↔
      mapFind st.tables name = some h ∧ h.isNestedLoaded = true := by
  unfold DatabasePostgreSQLReplica.tryGetTable
  split
  · next hcond => rw [hpriv] at hcond; exact Bool.noConfusion hcond
  · cases hf : mapFind st.tables name with
    | none => simp
    | some t =>
      dsimp only
      by_cases hl : t.isNestedLoaded = true
      · rw [if_pos hl]
        constructor
        · intro h2
          injection h2 with h3
          subst h3
          exact ⟨rfl, hl⟩
        · rintro ⟨h2, h3⟩
          exact h2
      · rw [if_neg hl]
        constructor
        · intro h2
          cases h2
        · rintro ⟨h2, h3⟩
          injection h2 with h4
          subst h4
          exact absurd h3 hl

theorem tryGetTable_unprivileged_loaded_only_concrete :
    ((plainContext.hasQueryContext
       && plainContext.storages.contains "ReplacingMergeTree") = false)
    ∧ (DatabasePostgreSQLReplica.tryGetTable unitOps sampleState "orders"
         plainContext = some ⟨"orders", some 7⟩ ↔
       mapFind sampleState.tables "orders" = some ⟨"orders", some 7⟩
         ∧ StoragePostgreSQLReplica.isNestedLoaded ⟨"orders", some 7⟩ = true) :=
  ⟨by decide,
   tryGetTable_unprivileged_loaded_only unitOps sampleState "orders" plainContext
     ⟨"orders", some 7⟩ (by decide)⟩

/-- Claim C4: the snapshot produced by `getTablesIterator` contains exactly the
registry entries whose nested storage is present (`tryGetNested` non-absent);
in particular it never yields a Pending handle. -/
theorem getTablesIterator_exactly_loaded {σ : Type} (st : DatabaseState σ)
    (name : String) (ns : Nat) :
    (name, ns) ∈ DatabasePostgreSQLReplica.getTablesIterator st ↔
      ∃ h, (name, h) ∈ st.tables
        ∧ StoragePostgreSQLReplica.tryGetNested h = some ns := by
  unfold DatabasePostgreSQLReplica.getTablesIterator
  rw [List.mem_filterMap]
  constructor
  · rintro ⟨p, hmem, heq⟩
    obtain ⟨k, hh⟩ := p
    rcases Option.map_eq_some'.mp heq with ⟨a, ha, ha2⟩
    injection ha2 with h1 h2
    subst h1
    subst h2
    exact ⟨hh, hmem, ha⟩
  · rintro ⟨h, hmem, hns⟩
    exact ⟨(name, h), hmem, by simp [hns]⟩

theorem getTablesIterator_exactly_loaded_concrete :
    ("orders", 7) ∈ DatabasePostgreSQLReplica.getTablesIterator sampleState ↔
      ∃ h, ("orders", h) ∈ sampleState.tables
        ∧ StoragePostgreSQLReplica.tryGetNested h = some 7 :=
  getTablesIterator_exactly_loaded sampleState "orders" 7

/-- Claim C6: for every caller context carrying the privileged marker (in the
source, a query context whose query factories set names `ReplacingMergeTree`,
the designated replica-target storage kind), `createTable` is observationally
equivalent to the underlying catalog's own `createTable`: the same base-state
change on success and the same fault on failure, with no other façade state
touched. -/
theorem createTable_privileged_delegates {σ : Type} (ops : BaseOps σ)
    (st : DatabaseState σ) (context : Context) (name : String)
    (table : StoragePostgreSQLReplica) (query : Nat)
    (hpriv : (context.hasQueryContext
               && context.storages.contains "ReplacingMergeTree") = true) :
    (∀ b, ops.createTable st.base context name table query = .ok b →
        DatabasePostgreSQLReplica.createTable ops st context name table query =
          ⟨none, { st with base := b }, [Event.baseCreateTable name]⟩)
    ∧ (∀ e, ops.createTable st.base context name table query = .error e →
        DatabasePostgreSQLReplica.createTable ops st context name table query =
          ⟨some e, st, [Event.baseCreateTable name]⟩) := by
  constructor
  · intro b hb
    unfold DatabasePostgreSQLReplica.createTable
    rw [if_pos hpriv, hb]
  · intro e he
    unfold DatabasePostgreSQLReplica.createTable
    rw [if_pos hpriv, he]

theorem createTable_privileged_delegates_concrete :
    ((syncContext.hasQueryContext
       && syncContext.storages.contains "ReplacingMergeTree") = true)
    ∧ DatabasePostgreSQLReplica.createTable unitOps sampleState syncContext
        "orders" ⟨"orders", none⟩ 0 =
        ⟨none, { sampleState with base := () }, [Event.baseCreateTable "orders"]⟩ :=
  ⟨by decide,
   (createTable_privileged_delegates unitOps sampleState syncContext
      "orders" ⟨"orders", none⟩ 0 (by decide)).1 () rfl⟩

/-- Claim C8: for every façade state, with or without a constructed coordinator,
calling `shutdown` twice yields the same state as calling it once; `shutdown`
never performs the blocking final join and never touches the metadata file. -/
theorem shutdown_idempotent_no_final_join {σ : Type} (st : DatabaseState σ) :
    (DatabasePostgreSQLReplica.shutdown
        (DatabasePostgreSQLReplica.shutdown st).1).1 =
      (DatabasePostgreSQLReplica.shutdown st).1
    ∧ Event.coordShutdownFinal ∉ (DatabasePostgreSQLReplica.shutdown st).2
    ∧ Event.metadataRemove ∉ (DatabasePostgreSQLReplica.shutdown st).2
    ∧ (DatabasePostgreSQLReplica.shutdown st).1.metadataFileExists =
        st.metadataFileExists := by
  cases hr : st.replication_handler with
  | none => simp [DatabasePostgreSQLReplica.shutdown, hr]
  | some h =>
      simp [DatabasePostgreSQLReplica.shutdown, hr,
        PostgreSQLReplicationHandler.shutdown]

theorem shutdown_idempotent_no_final_join_concrete :
    (DatabasePostgreSQLReplica.shutdown
        (DatabasePostgreSQLReplica.shutdown sampleState).1).1 =
      (DatabasePostgreSQLReplica.shutdown sampleState).1
    ∧ Event.coordShutdownFinal ∉ (DatabasePostgreSQLReplica.shutdown sampleState).2
    ∧ Event.metadataRemove ∉ (DatabasePostgreSQLReplica.shutdown sampleState).2
    ∧ (DatabasePostgreSQLReplica.shutdown sampleState).1.metadataFileExists =
        sampleState.metadataFileExists :=
  shutdown_idempotent_no_final_join sampleState

/-- Claim C9: the interpreter constructor injects the scalar `_shard_num`
(resp. `_shard_count`) with the value carried by the options exactly when that
option is set; when unset, the corresponding scalar entry is left untouched. -/
theorem shard_scalars_injected (context : QueryContext)
    (options : SelectQueryOptions) :
    (∀ v, options.shard_num = some v →
      mapFind (IInterpreterUnionOrSelectQuery context options).special_scalars
        "_shard_num" = some v)
    ∧ (options.shard_num = none →
      mapFind (IInterpreterUnionOrSelectQuery context options).special_scalars
        "_shard_num" = mapFind context.special_scalars "_shard_num")
    ∧ (∀ v, options.shard_count = some v →
      mapFind (IInterpreterUnionOrSelectQuery context options).special_scalars
        "_shard_count" = some v)
    ∧ (options.shard_count = none →
      mapFind (IInterpreterUnionOrSelectQuery context options).special_scalars
        "_shard_count" = mapFind context.special_scalars "_shard_count") := by
  have hne : ("_shard_count" : String) ≠ "_shard_num" := by decide
  have hne2 : ("_shard_num" : String) ≠ "_shard_count" := by decide
  refine ⟨?_, ?_, ?_, ?_⟩
  · intro v hv
    cases hsc : options.shard_count with
    | none =>
        simp [IInterpreterUnionOrSelectQuery, hv, hsc,
          QueryContext.addSpecialScalar, mapFind_mapInsert_self]
    | some w =>
        simp only [IInterpreterUnionOrSelectQuery, hv, hsc,
          QueryContext.addSpecialScalar]
        rw [mapFind_mapInsert_ne _ _ _ _ hne]
        exact mapFind_mapInsert_self _ _ _
  · intro hv
    cases hsc : options.shard_count with
    | none => simp [IInterpreterUnionOrSelectQuery, hv, hsc]
    | some w =>
        simp only [IInterpreterUnionOrSelectQuery, hv, hsc,
          QueryContext.addSpecialScalar]
        exact mapFind_mapInsert_ne _ _ _ _ hne
  · intro v hv
    cases hsn : options.shard_num with
    | none =>
        simp [IInterpreterUnionOrSelectQuery, hv, hsn,
          QueryContext.addSpecialScalar, mapFind_mapInsert_self]
    | some w =>
        simp only [IInterpreterUnionOrSelectQuery, hv, hsn,
          QueryContext.addSpecialScalar]
        exact mapFind_mapInsert_self _ _ _
  · intro hv
    cases hsn : options.shard_num with
    | none => simp [IInterpreterUnionOrSelectQuery, hv, hsn]
    | some w =>
        simp only [IInterpreterUnionOrSelectQuery, hv, hsn,
          QueryContext.addSpecialScalar]
        exact mapFind_mapInsert_ne _ _ _ _ hne2

theorem shard_scalars_injected_concrete :
    ((⟨some 3, some 5⟩ : SelectQueryOptions).shard_num = some 3)
    ∧ mapFind (IInterpreterUnionOrSelectQuery ⟨[]⟩ ⟨some 3, some 5⟩).special_scalars
        "_shard_num" = some 3 :=
  ⟨rfl, (shard_scalars_injected ⟨[]⟩ ⟨some 3, some 5⟩).1 3 rfl⟩

/-- Claim C10: `dropTable` leaves every façade-owned component unchanged: the
registry (hence the lookup for the dropped name), the coordinator, and the
metadata file; its only effect is the underlying catalog's table-level drop,
and its trace holds no coordinator event. -/
theorem dropTable_frame {σ : Type} (ops : BaseOps σ) (st : DatabaseState σ)
    (context : Context) (name : String) (no_delay : Bool) :
    (DatabasePostgreSQLReplica.dropTable ops st context name no_delay).state.tables
      = st.tables
    ∧ (DatabasePostgreSQLReplica.dropTable ops st context name
        no_delay).state.replication_handler = st.replication_handler
    ∧ (DatabasePostgreSQLReplica.dropTable ops st context name
        no_delay).state.metadataFileExists = st.metadataFileExists
    ∧ mapFind (DatabasePostgreSQLReplica.dropTable ops st context name
        no_delay).state.tables name = mapFind st.tables name
    ∧ (DatabasePostgreSQLReplica.dropTable ops st context name no_delay).trace =
        [Event.baseDropTable name]
    ∧ (∀ b, ops.dropTable st.base context name no_delay = .ok b →
        (DatabasePostgreSQLReplica.dropTable ops st context name
          no_delay).state.base = b) := by
  cases hb : ops.dropTable st.base context name no_delay <;>
    simp [DatabasePostgreSQLReplica.dropTable, hb]

theorem dropTable_frame_concrete :
    (DatabasePostgreSQLReplica.dropTable unitOps sampleState plainContext
      "orders" false).state.tables = sampleState.tables :=
  (dropTable_frame unitOps sampleState plainContext "orders" false).1

/-- Claim C1: for every reachable prior state, `drop` performs coordinator
`shutdown` followed by the blocking `shutdownFinal` before any metadata-file
deletion attempt; when the coordinator was never constructed both steps are
skipped and `drop` proceeds directly to the metadata step and then to the
underlying catalog's drop.  The metadata file is never removed before the
coordinator has fully quiesced. -/
theorem drop_quiesces_before_metadata_removal {σ : Type} (removeOk : Bool)
    (ops : BaseOps σ) (st : DatabaseState σ) (context : Context) :
    quiescedBeforeRemove
        (DatabasePostgreSQLReplica.drop removeOk ops st context).trace
        st.replication_handler.isNone st.replication_handler.isNone = true
    ∧ (match st.replication_handler with
       | some _ =>
           (DatabasePostgreSQLReplica.drop removeOk ops st context).trace.take 2 =
             [Event.coordShutdown, Event.coordShutdownFinal]
       | none =>
           Event.coordShutdown ∉
             (DatabasePostgreSQLReplica.drop removeOk ops st context).trace
           ∧ Event.coordShutdownFinal ∉
             (DatabasePostgreSQLReplica.drop removeOk ops st context).trace
           ∧ ((DatabasePostgreSQLReplica.drop removeOk ops st context).err = none →
               (DatabasePostgreSQLReplica.drop removeOk ops st
                 context).trace.getLast? = some Event.baseDrop)) := by
  cases hr : st.replication_handler <;>
    cases hm : st.metadataFileExists <;>
      cases removeOk <;>
        simp [DatabasePostgreSQLReplica.drop, hr, hm, quiescedBeforeRemove]

theorem drop_quiesces_before_metadata_removal_concrete :
    quiescedBeforeRemove
        (DatabasePostgreSQLReplica.drop true unitOps sampleState plainContext).trace
        sampleState.replication_handler.isNone
        sampleState.replication_handler.isNone = true :=
  (drop_quiesces_before_metadata_removal true unitOps sampleState plainContext).1

/-- Claim C5: after `startSynchronization` completes from the reachable prior
state (the registry is empty before the one synchronization startup), the
registry key set equals exactly the table-name set returned by
`fetchRequiredTables` — no other name is ever inserted; each required name is
bound to a freshly created Pending handle, registered with the coordinator via
`addStorage`, and every `addStorage` event precedes the single coordinator
`startup` event in the produced trace. -/
theorem startSynchronization_registry_is_required_set {σ : Type}
    (ops : BaseOps σ) (st : DatabaseState σ) (required : List String)
    (startupOk : Bool) (hempty : st.tables = []) :
    (∀ n, n ∈ mapKeys (DatabasePostgreSQLReplica.startSynchronization
        ⟨true, some required, startupOk⟩ ops st).state.tables ↔ n ∈ required)
    ∧ (∀ p ∈ (DatabasePostgreSQLReplica.startSynchronization
        ⟨true, some required, startupOk⟩ ops st).state.tables, p.2.nested = none)
    ∧ (∃ c, (DatabasePostgreSQLReplica.startSynchronization
          ⟨true, some required, startupOk⟩ ops st).state.replication_handler =
            some c
        ∧ c.registered = required ∧ c.started = startupOk)
    ∧ (DatabasePostgreSQLReplica.startSynchronization
        ⟨true, some required, startupOk⟩ ops st).trace =
        [Event.coordConstruct, Event.coordFetchRequiredTables]
          ++ required.map Event.coordAddStorage ++ [Event.coordStartup] := by
  cases startupOk with
  | true =>
    have hred : DatabasePostgreSQLReplica.startSynchronization
        ⟨true, some required, true⟩ ops st =
        ⟨none,
         ⟨(DatabasePostgreSQLReplica.syncLoop ops required
             (afterConstruct st)).1.tables,
          Option.map PostgreSQLReplicationHandler.startup
            (DatabasePostgreSQLReplica.syncLoop ops required
              (afterConstruct st)).1.replication_handler,
          (DatabasePostgreSQLReplica.syncLoop ops required
            (afterConstruct st)).1.metadataFileExists,
          (DatabasePostgreSQLReplica.syncLoop ops required
            (afterConstruct st)).1.base⟩,
         [Event.coordConstruct, Event.coordFetchRequiredTables]
           ++ (DatabasePostgreSQLReplica.syncLoop ops required
                (afterConstruct st)).2
           ++ [Event.coordStartup]⟩ := rfl
    rw [hred]
    refine ⟨?_, ?_, ?_, ?_⟩
    · intro n
      dsimp only
      rw [syncLoop_keys]
      simp [hempty, mapKeys, afterConstruct]
    · dsimp only
      exact syncLoop_pending ops required _ (by simp [hempty, afterConstruct])
    · dsimp only
      rw [syncLoop_handler]
      exact ⟨⟨required, true, false, false⟩,
        by simp [afterConstruct, PostgreSQLReplicationHandler.startup], rfl, rfl⟩
    · dsimp only
      rw [syncLoop_trace]
  | false =>
    have hred : DatabasePostgreSQLReplica.startSynchronization
        ⟨true, some required, false⟩ ops st =
        ⟨some .startupFailed,
         (DatabasePostgreSQLReplica.syncLoop ops required (afterConstruct st)).1,
         [Event.coordConstruct, Event.coordFetchRequiredTables]
           ++ (DatabasePostgreSQLReplica.syncLoop ops required
                (afterConstruct st)).2
           ++ [Event.coordStartup]⟩ := rfl
    rw [hred]
    refine ⟨?_, ?_, ?_, ?_⟩
    · intro n
      dsimp only
      rw [syncLoop_keys]
      simp [hempty, mapKeys, afterConstruct]
    · dsimp only
      exact syncLoop_pending ops required _ (by simp [hempty, afterConstruct])
    · dsimp only
      rw [syncLoop_handler]
      exact ⟨⟨required, false, false, false⟩, by simp [afterConstruct], rfl, rfl⟩
    · dsimp only
      rw [syncLoop_trace]

theorem startSynchronization_registry_concrete :
    bareState.tables = []
    ∧ ("orders" ∈ mapKeys (DatabasePostgreSQLReplica.startSynchronization
          ⟨true, some ["orders"], true⟩ unitOps bareState).state.tables ↔
        "orders" ∈ ["orders"])
    ∧ ("customers" ∈ mapKeys (DatabasePostgreSQLReplica.startSynchronization
          ⟨true, some ["orders"], true⟩ unitOps bareState).state.tables ↔
        "customers" ∈ ["orders"]) :=
  ⟨rfl,
   (startSynchronization_registry_is_required_set unitOps bareState ["orders"]
      true rfl).1 "orders",
   (startSynchronization_registry_is_required_set unitOps bareState ["orders"]
      true rfl).1 "customers"⟩

/-- Claim C7: `loadStoredObjects` delegates hydration of persisted definitions
to the underlying catalog first and only then invokes synchronization startup;
any fault of coordinator construction, table discovery or startup propagates
out of `loadStoredObjects` rather than being caught. -/
theorem loadStoredObjects_hydrates_then_syncs {σ : Type} (env : SyncEnv)
    (ops : BaseOps σ) (st : DatabaseState σ)
    (has_force_restore_data_flag force_attach : Bool) :
    (DatabasePostgreSQLReplica.loadStoredObjects env ops st
        has_force_restore_data_flag force_attach).trace.head? =
      some Event.baseLoadStoredObjects
    ∧ (∀ b, ops.loadStoredObjects st.base has_force_restore_data_flag
          force_attach = .ok b →
        DatabasePostgreSQLReplica.loadStoredObjects env ops st
            has_force_restore_data_flag force_attach =
          ⟨(DatabasePostgreSQLReplica.startSynchronization env ops
              { st with base := b }).err,
           (DatabasePostgreSQLReplica.startSynchronization env ops
              { st with base := b }).state,
           Event.baseLoadStoredObjects ::
             (DatabasePostgreSQLReplica.startSynchronization env ops
               { st with base := b }).trace⟩) := by
  cases hb : ops.loadStoredObjects st.base has_force_restore_data_flag
      force_attach with
  | error e =>
      constructor
      · simp [DatabasePostgreSQLReplica.loadStoredObjects, hb]
      · intro b hb2
        cases hb2
  | ok b =>
      constructor
      · simp [DatabasePostgreSQLReplica.loadStoredObjects, hb]
      · intro b2 hb2
        injection hb2 with h3
        subst h3
        simp [DatabasePostgreSQLReplica.loadStoredObjects, hb]

theorem loadStoredObjects_hydrates_then_syncs_concrete :
    (unitOps.loadStoredObjects bareState.base false false = .ok ())
    ∧ DatabasePostgreSQLReplica.loadStoredObjects ⟨false, none, false⟩ unitOps
        bareState false false =
      ⟨(DatabasePostgreSQLReplica.startSynchronization ⟨false, none, false⟩
          unitOps { bareState with base := () }).err,
       (DatabasePostgreSQLReplica.startSynchronization ⟨false, none, false⟩
          unitOps { bareState with base := () }).state,
       Event.baseLoadStoredObjects ::
         (DatabasePostgreSQLReplica.startSynchronization ⟨false, none, false⟩
           unitOps { bareState with base := () }).trace⟩ :=
  ⟨rfl,
   (loadStoredObjects_hydrates_then_syncs ⟨false, none, false⟩ unitOps bareState
      false false).2 () rfl⟩

end ClickHouse
